import Mathlib

/-!
Verification development for the GeNN model IR, hashing/fusion layer and
runtime allocator.  Definitions are shallow embeddings of the C++ sources
under src/ (synapseGroup.cc, runtime/runtime.cc,
code_generator/neuronUpdateGroupMerged.cc, modelSpec.h); theorems settle
the specification claims against them.
-/

namespace GeNN

/-- Modelled from the spec: the GeNN token stream produced by the embedded
DSL scanner (GeNN::Utils, gennUtils.cc, which is not under src/).  Per spec
section 3 (CodeTokens), every code fragment is scanned once into a token
stream and identifier-reference queries operate on tokens.  Only the
identifier class matters for the claims; every other lexeme is `other`. -/
inductive Token where
  | ident (lexeme : String) : Token
  | other (lexeme : String) : Token
deriving DecidableEq

abbrev Tokens := List Token

/-- Modelled from the spec: GeNN::Utils::areTokensEmpty — a scanned code
fragment is empty when it contains no tokens. -/
def areTokensEmpty (ts : Tokens) : Bool := ts.isEmpty

/-- Modelled from the spec: GeNN::Utils::isIdentifierReferenced — an
identifier is referenced in a code fragment when the token stream contains
an identifier token with that exact lexeme. -/
def isIdentifierReferenced (name : String) (ts : Tokens) : Bool :=
  ts.any (fun t => match t with
                   | .ident s => s == name
                   | .other _ => false)

/-- One value absorbed into a boost sha1 hash by GeNN::Utils::updateHash.
Digests of sub-models (weight-update / postsynaptic model digests) are
treated as opaque naturals since the group-level code never inspects them. -/
inductive HashVal where
  | n (v : Nat) : HashVal
  | b (v : Bool) : HashVal
  | s (v : String) : HashVal
  | q (v : Rat) : HashVal
deriving DecidableEq

/-- A fuse/merge hash digest, modelled as the exact sequence of values the
C++ code absorbs into the sha1 state: two digests are equal iff the hashed
byte streams coincide. -/
abbrev Digest := List HashVal

/-- Lookup of a parameter value in a parameter map
(std::unordered_map<std::string, double>::at). -/
def paramAt (l : List (String × Rat)) (k : String) : Rat :=
  match l.find? (fun kv => kv.1 == k) with
  | some kv => kv.2
  | none => 0

/-- Replace the value stored under key `k`, keeping every other entry. -/
def setParam (l : List (String × Rat)) (k : String) (v : Rat) :
    List (String × Rat) :=
  l.map (fun kv => if kv.1 == k then (k, v) else kv)

/-- Absorb a parameter map into a hash transcript
(GeNN::Utils::updateHash on a name-to-double map). -/
def hashParams (l : List (String × Rat)) : Digest :=
  l.foldr (fun kv acc => HashVal.s kv.1 :: HashVal.q kv.2 :: acc) []

/-- A variable initialiser (InitVarSnippet::Init) as seen by the hashing
and fusion predicates: whether its snippet is InitVarSnippet::Constant
(the dynamic_cast in canPSBeFused and friends) together with its
parameter map. -/
structure VarInit where
  snippetConstant : Bool
  params : List (String × Rat)
deriving DecidableEq

/-- The SynapseGroup state read by the hash-digest member functions of
src/src/genn/genn/synapseGroup.cc.  Code fragments are stored as the token
streams scanned in the constructor; sub-model digests are opaque. -/
structure SynapseGroup where
  wuModelHash : Nat
  wuModelPreHash : Nat
  wuModelPostHash : Nat
  psModelHash : Nat
  delaySteps : Nat
  backPropDelaySteps : Nat
  maxDendriticDelayTimesteps : Nat
  psTargetVar : String
  psParams : List (String × Rat)
  psDerivedParams : List (String × Rat)
  psVarInitialisers : List (String × VarInit)
  psNeuronVarReferences : List (String × String)
  psExtraGlobalParams : List String
  psDecayCodeTokens : Tokens
  psApplyInputCodeTokens : Tokens
  wuParamNames : List String
  wuParams : List (String × Rat)
  wuDerivedParamNames : List String
  wuDerivedParams : List (String × Rat)
  wuPreVarInitialisers : List (String × VarInit)
  wuPostVarInitialisers : List (String × VarInit)
  wuPreSpikeCodeTokens : Tokens
  wuPreDynamicsCodeTokens : Tokens
  wuPostSpikeCodeTokens : Tokens
  wuPostDynamicsCodeTokens : Tokens
deriving DecidableEq

namespace SynapseGroup

/-- SynapseGroup::canPSBeFused (synapseGroup.cc lines 585-611): false if any
postsynaptic-model variable initialiser is not the Constant snippet, or any
postsynaptic-model extra-global parameter is referenced in the decay code
tokens or the apply-input code tokens. -/
def canPSBeFused (g : SynapseGroup) : Bool :=
  if g.psVarInitialisers.any (fun v => !v.2.snippetConstant) then
    false
  else if g.psExtraGlobalParams.any (fun egp =>
      isIdentifierReferenced egp g.psDecayCodeTokens
      || isIdentifierReferenced egp g.psApplyInputCodeTokens) then
    false
  else
    true

/-- SynapseGroup::getWUPreHashDigest (synapseGroup.cc lines 893-899): the
weight-update model digest followed by whether delaySteps is nonzero. -/
def getWUPreHashDigest (g : SynapseGroup) : Digest :=
  [HashVal.n g.wuModelHash, HashVal.b (g.delaySteps != 0)]

/-- SynapseGroup::getWUPostHashDigest (synapseGroup.cc lines 901-907): the
weight-update model digest followed by whether backPropDelaySteps is
nonzero. -/
def getWUPostHashDigest (g : SynapseGroup) : Digest :=
  [HashVal.n g.wuModelHash, HashVal.b (g.backPropDelaySteps != 0)]

/-- SynapseGroup::getPSFuseHashDigest (synapseGroup.cc lines 926-951): PS
model digest, max dendritic delay, target variable, the FULL parameter and
derived-parameter maps, the constant initialiser values, and the neuron
variable reference targets. -/
def getPSFuseHashDigest (g : SynapseGroup) : Digest :=
  HashVal.n g.psModelHash
  :: HashVal.n g.maxDendriticDelayTimesteps
  :: HashVal.s g.psTargetVar
  :: hashParams g.psParams
  ++ hashParams g.psDerivedParams
  ++ g.psVarInitialisers.map (fun w => HashVal.q (paramAt w.2.params "constant"))
  ++ g.psNeuronVarReferences.map (fun v => HashVal.s v.2)

/-- SynapseGroup::getWUPreFuseHashDigest (synapseGroup.cc lines 960-995):
the weight-update model's pre digest, delaySteps, the constant values of
the presynaptic variable initialisers, and the values of exactly those
(derived) parameters referenced in the presynaptic spike or presynaptic
dynamics code tokens. -/
def getWUPreFuseHashDigest (g : SynapseGroup) : Digest :=
  HashVal.n g.wuModelPreHash
  :: HashVal.n g.delaySteps
  :: g.wuPreVarInitialisers.map (fun w => HashVal.q (paramAt w.2.params "constant"))
  ++ g.wuParamNames.filterMap (fun p =>
      if isIdentifierReferenced p g.wuPreSpikeCodeTokens
         || isIdentifierReferenced p g.wuPreDynamicsCodeTokens then
        some (HashVal.q (paramAt g.wuParams p))
      else none)
  ++ g.wuDerivedParamNames.filterMap (fun d =>
      if isIdentifierReferenced d g.wuPreSpikeCodeTokens
         || isIdentifierReferenced d g.wuPreDynamicsCodeTokens then
        some (HashVal.q (paramAt g.wuDerivedParams d))
      else none)

/-- SynapseGroup::getWUPostFuseHashDigest (synapseGroup.cc lines 997-1032):
the weight-update model's post digest, backPropDelaySteps, the constant
values of the postsynaptic variable initialisers, and the values of exactly
those (derived) parameters referenced in the postsynaptic spike or
postsynaptic dynamics code tokens. -/
def getWUPostFuseHashDigest (g : SynapseGroup) : Digest :=
  HashVal.n g.wuModelPostHash
  :: HashVal.n g.backPropDelaySteps
  :: g.wuPostVarInitialisers.map (fun w => HashVal.q (paramAt w.2.params "constant"))
  ++ g.wuParamNames.filterMap (fun p =>
      if isIdentifierReferenced p g.wuPostSpikeCodeTokens
         || isIdentifierReferenced p g.wuPostDynamicsCodeTokens then
        some (HashVal.q (paramAt g.wuParams p))
      else none)
  ++ g.wuDerivedParamNames.filterMap (fun d =>
      if isIdentifierReferenced d g.wuPostSpikeCodeTokens
         || isIdentifierReferenced d g.wuPostDynamicsCodeTokens then
        some (HashVal.q (paramAt g.wuDerivedParams d))
      else none)

end SynapseGroup

/-- Head unfolding of parameter lookup. -/
theorem paramAt_cons (x : String × Rat) (xs : List (String × Rat))
    (q : String) :
    paramAt (x :: xs) q = if x.1 == q then x.2 else paramAt xs q := by
  simp only [paramAt, List.find?]
  cases h : (x.1 == q) <;> simp [h]

/-- Updating one key leaves every other key's lookup unchanged. -/
theorem paramAt_setParam_ne (l : List (String × Rat)) (p q : String)
    (v : Rat) (h : q ≠ p) : paramAt (setParam l p v) q = paramAt l q := by
  induction l with
  | nil => rfl
  | cons kv tl ih =>
    show paramAt ((if kv.1 == p then (p, v) else kv) :: setParam tl p v) q
        = paramAt (kv :: tl) q
    rw [paramAt_cons, paramAt_cons, ih]
    by_cases hp : kv.1 = p
    · have h1 : (kv.1 == p) = true := by simp [hp]
      have h2 : (p == q) = false := by
        simp only [beq_eq_false_iff_ne, ne_eq]
        exact fun hc => h hc.symm
      have h3 : (kv.1 == q) = false := by rw [hp]; exact h2
      simp [h1, h2, h3]
    · have h1 : (kv.1 == p) = false := by simp [hp]
      simp [h1]

/-- A parameter filter that rejects `p` makes the referenced-parameters part
of a fuse digest insensitive to the value stored under `p`. -/
theorem filterMap_params_setParam (names : List String)
    (vals : List (String × Rat)) (p : String) (v : Rat)
    (keep : String → Bool) (hp : keep p = false) :
    names.filterMap (fun q =>
        if keep q then some (HashVal.q (paramAt (setParam vals p v) q))
        else none)
    = names.filterMap (fun q =>
        if keep q then some (HashVal.q (paramAt vals q)) else none) := by
  induction names with
  | nil => rfl
  | cons a tl ih =>
    simp only [List.filterMap_cons]
    by_cases ha : keep a = true
    · have hap : a ≠ p := fun hc => by rw [hc] at ha; rw [hp] at ha; cases ha
      rw [paramAt_setParam_ne vals p a v hap]
      simp only [ha, if_true, ih]
    · simp only [Bool.not_eq_true] at ha
      simp only [ha, Bool.false_eq_true, if_false, ih]

/-- A synapse group with every list field empty, used as the base point of
the concrete groups appearing in witnesses and counterexamples. -/
def sgDefault : SynapseGroup where
  wuModelHash := 0
  wuModelPreHash := 0
  wuModelPostHash := 0
  psModelHash := 0
  delaySteps := 0
  backPropDelaySteps := 0
  maxDendriticDelayTimesteps := 1
  psTargetVar := "Isyn"
  psParams := []
  psDerivedParams := []
  psVarInitialisers := []
  psNeuronVarReferences := []
  psExtraGlobalParams := []
  psDecayCodeTokens := []
  psApplyInputCodeTokens := []
  wuParamNames := []
  wuParams := []
  wuDerivedParamNames := []
  wuDerivedParams := []
  wuPreVarInitialisers := []
  wuPostVarInitialisers := []
  wuPreSpikeCodeTokens := []
  wuPreDynamicsCodeTokens := []
  wuPostSpikeCodeTokens := []
  wuPostDynamicsCodeTokens := []

/-- C2: canPSBeFused() returns true if and only if every postsynaptic-model
variable initialiser is the Constant snippet and no postsynaptic-model
extra-global parameter's name is referenced as an identifier in either the
decay code tokens or the apply-input code tokens. -/
theorem C2_canPSBeFused_iff (g : SynapseGroup) :
    g.canPSBeFused = true ↔
      ((∀ v ∈ g.psVarInitialisers, v.2.snippetConstant = true) ∧
       ∀ egp ∈ g.psExtraGlobalParams,
         isIdentifierReferenced egp g.psDecayCodeTokens = false ∧
         isIdentifierReferenced egp g.psApplyInputCodeTokens = false) := by
  simp only [SynapseGroup.canPSBeFused]
  cases hA : g.psVarInitialisers.any (fun v => !v.2.snippetConstant) with
  | true =>
    simp only [hA, if_true]
    constructor
    · intro h; cases h
    · rintro ⟨h1, _⟩
      obtain ⟨v, hv, hv2⟩ := List.any_eq_true.mp hA
      rw [h1 v hv] at hv2
      cases hv2
  | false =>
    simp only [hA, Bool.false_eq_true, if_false]
    have h1 : ∀ v ∈ g.psVarInitialisers, v.2.snippetConstant = true := by
      intro v hv
      by_contra hc
      have hany : g.psVarInitialisers.any (fun v => !v.2.snippetConstant) = true :=
        List.any_eq_true.mpr ⟨v, hv, by simp [hc]⟩
      rw [hA] at hany; cases hany
    cases hB : g.psExtraGlobalParams.any (fun egp =>
        isIdentifierReferenced egp g.psDecayCodeTokens
        || isIdentifierReferenced egp g.psApplyInputCodeTokens) with
    | true =>
      simp only [hB, if_true]
      constructor
      · intro h; cases h
      · rintro ⟨_, h2⟩
        obtain ⟨egp, hegp, hr⟩ := List.any_eq_true.mp hB
        rcases Bool.or_eq_true_iff.mp hr with hr | hr
        · rw [(h2 egp hegp).1] at hr; cases hr
        · rw [(h2 egp hegp).2] at hr; cases hr
    | false =>
      simp only [hB, Bool.false_eq_true, if_false, true_iff]
      refine ⟨h1, fun egp hegp => ?_⟩
      constructor
      · by_contra hc
        have hany : g.psExtraGlobalParams.any (fun egp =>
            isIdentifierReferenced egp g.psDecayCodeTokens
            || isIdentifierReferenced egp g.psApplyInputCodeTokens) = true :=
          List.any_eq_true.mpr ⟨egp, hegp, by
            simp only [Bool.or_eq_true_iff]
            exact Or.inl (eq_true_of_ne_false hc)⟩
        rw [hB] at hany; cases hany
      · by_contra hc
        have hany : g.psExtraGlobalParams.any (fun egp =>
            isIdentifierReferenced egp g.psDecayCodeTokens
            || isIdentifierReferenced egp g.psApplyInputCodeTokens) = true :=
          List.any_eq_true.mpr ⟨egp, hegp, by
            simp only [Bool.or_eq_true_iff]
            exact Or.inr (eq_true_of_ne_false hc)⟩
        rw [hB] at hany; cases hany

/-- C10: getWUPreHashDigest depends only on the weight-update model digest
and on whether delaySteps is nonzero — two groups with the same model and
both nonzero axonal delays (possibly different values) hash equal; the
analogous property holds for getWUPostHashDigest with backPropDelaySteps. -/
theorem C10_wuPrePostHashDigest_delay_insensitive (g1 g2 : SynapseGroup)
    (hm : g1.wuModelHash = g2.wuModelHash) :
    ((g1.delaySteps ≠ 0 ∧ g2.delaySteps ≠ 0) →
      g1.getWUPreHashDigest = g2.getWUPreHashDigest) ∧
    ((g1.backPropDelaySteps ≠ 0 ∧ g2.backPropDelaySteps ≠ 0) →
      g1.getWUPostHashDigest = g2.getWUPostHashDigest) := by
  constructor <;> rintro ⟨h1, h2⟩
  · have b1 : (g1.delaySteps != 0) = true := bne_iff_ne.mpr h1
    have b2 : (g2.delaySteps != 0) = true := bne_iff_ne.mpr h2
    simp [SynapseGroup.getWUPreHashDigest, hm, b1, b2]
  · have b1 : (g1.backPropDelaySteps != 0) = true := bne_iff_ne.mpr h1
    have b2 : (g2.backPropDelaySteps != 0) = true := bne_iff_ne.mpr h2
    simp [SynapseGroup.getWUPostHashDigest, hm, b1, b2]

/-- Concrete group with axonal delay 3 and back-propagation delay 1. -/
def sgDelayA : SynapseGroup :=
  { sgDefault with delaySteps := 3, backPropDelaySteps := 1 }

/-- Concrete group with axonal delay 7 and back-propagation delay 2. -/
def sgDelayB : SynapseGroup :=
  { sgDefault with delaySteps := 7, backPropDelaySteps := 2 }

/-- Concrete group whose postsynaptic model has one parameter `tau` with
value 1, referenced in no code fragment (all token streams are empty). -/
def sgPSParamA : SynapseGroup := { sgDefault with psParams := [("tau", 1)] }

/-- Same group as sgPSParamA except for the unreferenced `tau` value. -/
def sgPSParamB : SynapseGroup := { sgDefault with psParams := [("tau", 2)] }

/-- Counterexample for C1: sgPSParamA and sgPSParamB are identical apart
from the value of the postsynaptic-model parameter `tau`, which is
referenced in neither the decay nor the apply-input code tokens, yet their
getPSFuseHashDigest results differ — getPSFuseHashDigest absorbs the entire
parameter map, so even unreferenced PS parameter values contribute. -/
theorem C1_counterexample :
    sgPSParamB = { sgPSParamA with
                   psParams := setParam sgPSParamA.psParams "tau" 2 } ∧
    isIdentifierReferenced "tau" sgPSParamA.psDecayCodeTokens = false ∧
    isIdentifierReferenced "tau" sgPSParamA.psApplyInputCodeTokens = false ∧
    sgPSParamA.getPSFuseHashDigest ≠ sgPSParamB.getPSFuseHashDigest :=
  ⟨by decide, by decide, by decide, by decide⟩

/-- C1 (amended): for the weight-update fuse digests the claim holds —
changing the value of a weight-update parameter that is referenced in
neither the presynaptic nor the postsynaptic spike/dynamics code tokens
leaves getWUPreFuseHashDigest and getWUPostFuseHashDigest unchanged.  (For
getPSFuseHashDigest the claim fails: all postsynaptic parameter values are
hashed.) -/
theorem C1_unreferenced_param_fuse_digest (g : SynapseGroup) (p : String)
    (v : Rat)
    (hpre : isIdentifierReferenced p g.wuPreSpikeCodeTokens = false)
    (hpredyn : isIdentifierReferenced p g.wuPreDynamicsCodeTokens = false)
    (hpost : isIdentifierReferenced p g.wuPostSpikeCodeTokens = false)
    (hpostdyn : isIdentifierReferenced p g.wuPostDynamicsCodeTokens = false) :
    SynapseGroup.getWUPreFuseHashDigest
        { g with wuParams := setParam g.wuParams p v }
      = g.getWUPreFuseHashDigest ∧
    SynapseGroup.getWUPostFuseHashDigest
        { g with wuParams := setParam g.wuParams p v }
      = g.getWUPostFuseHashDigest := by
  constructor
  · show HashVal.n g.wuModelPreHash
        :: HashVal.n g.delaySteps
        :: g.wuPreVarInitialisers.map
            (fun w => HashVal.q (paramAt w.2.params "constant"))
        ++ g.wuParamNames.filterMap (fun q =>
            if isIdentifierReferenced q g.wuPreSpikeCodeTokens
               || isIdentifierReferenced q g.wuPreDynamicsCodeTokens then
              some (HashVal.q (paramAt (setParam g.wuParams p v) q))
            else none)
        ++ g.wuDerivedParamNames.filterMap (fun d =>
            if isIdentifierReferenced d g.wuPreSpikeCodeTokens
               || isIdentifierReferenced d g.wuPreDynamicsCodeTokens then
              some (HashVal.q (paramAt g.wuDerivedParams d))
            else none)
        = _
    rw [filterMap_params_setParam g.wuParamNames g.wuParams p v
          (fun q => isIdentifierReferenced q g.wuPreSpikeCodeTokens
                    || isIdentifierReferenced q g.wuPreDynamicsCodeTokens)
          (by simp only []; rw [hpre, hpredyn]; rfl)]
    rfl
  · show HashVal.n g.wuModelPostHash
        :: HashVal.n g.backPropDelaySteps
        :: g.wuPostVarInitialisers.map
            (fun w => HashVal.q (paramAt w.2.params "constant"))
        ++ g.wuParamNames.filterMap (fun q =>
            if isIdentifierReferenced q g.wuPostSpikeCodeTokens
               || isIdentifierReferenced q g.wuPostDynamicsCodeTokens then
              some (HashVal.q (paramAt (setParam g.wuParams p v) q))
            else none)
        ++ g.wuDerivedParamNames.filterMap (fun d =>
            if isIdentifierReferenced d g.wuPostSpikeCodeTokens
               || isIdentifierReferenced d g.wuPostDynamicsCodeTokens then
              some (HashVal.q (paramAt g.wuDerivedParams d))
            else none)
        = _
    rw [filterMap_params_setParam g.wuParamNames g.wuParams p v
          (fun q => isIdentifierReferenced q g.wuPostSpikeCodeTokens
                    || isIdentifierReferenced q g.wuPostDynamicsCodeTokens)
          (by simp only []; rw [hpost, hpostdyn]; rfl)]
    rfl

/-- Concrete group with one weight-update parameter `w` referenced
nowhere. -/
def sgWUParam : SynapseGroup :=
  { sgDefault with wuParamNames := ["w"], wuParams := [("w", 1)] }

/-- Witness for the amended C1 at a concrete group: changing the
unreferenced weight-update parameter `w` to 5 leaves both weight-update
fuse digests unchanged. -/
theorem C1_unreferenced_param_fuse_digest_witness :
    SynapseGroup.getWUPreFuseHashDigest
        { sgWUParam with wuParams := setParam sgWUParam.wuParams "w" 5 }
      = sgWUParam.getWUPreFuseHashDigest ∧
    SynapseGroup.getWUPostFuseHashDigest
        { sgWUParam with wuParams := setParam sgWUParam.wuParams "w" 5 }
      = sgWUParam.getWUPostFuseHashDigest :=
  C1_unreferenced_param_fuse_digest sgWUParam "w" 5
    (by decide) (by decide) (by decide) (by decide)

/-- Witness for C10 at two concrete groups with different nonzero delays. -/
theorem C10_witness :
    sgDelayA.getWUPreHashDigest = sgDelayB.getWUPreHashDigest ∧
    sgDelayA.getWUPostHashDigest = sgDelayB.getWUPostHashDigest :=
  ⟨(C10_wuPrePostHashDigest_delay_insensitive sgDelayA sgDelayB (by decide)).1
      ⟨by decide, by decide⟩,
   (C10_wuPrePostHashDigest_delay_insensitive sgDelayA sgDelayB (by decide)).2
      ⟨by decide, by decide⟩⟩

/-- The resolved element types that SynapseGroup::getSparseIndType can
return (GeNN::Type::Uint8 / Uint16 / Uint32). -/
inductive ResolvedType where
  | uint8 : ResolvedType
  | uint16 : ResolvedType
  | uint32 : ResolvedType
deriving DecidableEq

/-- SynapseGroup::getSparseIndType (synapseGroup.cc lines 838-855): with
narrow sparse indices enabled, pick Uint8 when the target population fits
in a uint8, Uint16 when it fits in a uint16, Uint32 otherwise; with the
flag disabled always pick Uint32. -/
def getSparseIndType (narrowSparseIndEnabled : Bool)
    (numTrgNeurons : Nat) : ResolvedType :=
  if narrowSparseIndEnabled then
    if numTrgNeurons <= 255 then ResolvedType.uint8
    else if numTrgNeurons <= 65535 then ResolvedType.uint16
    else ResolvedType.uint32
  else ResolvedType.uint32

/-- One runtime array created by Runtime::createArray: symbolic name,
element type and element count. -/
structure RTArray where
  name : String
  type : ResolvedType
  count : Nat
deriving DecidableEq

/-- The sparse-connectivity slice of Runtime::allocate
(runtime/runtime.cc lines 267-287): for a synapse group with SPARSE
connectivity it creates the rowLength array, the ind array with element
type getSparseIndType, and, when the backend requires postsynaptic
remapping and learn-post code exists, the colLength and remap arrays. -/
def allocateSparseConnectivity (narrowSparseIndEnabled : Bool)
    (numPre numTrg rowStride maxSourceConnections : Nat)
    (remapRequired : Bool) : List RTArray :=
  [⟨"rowLength", ResolvedType.uint32, numPre⟩,
   ⟨"ind", getSparseIndType narrowSparseIndEnabled numTrg,
    numPre * rowStride⟩]
  ++ (if remapRequired then
        [⟨"colLength", ResolvedType.uint32, numTrg⟩,
         ⟨"remap", ResolvedType.uint32, numTrg * maxSourceConnections⟩]
      else [])

/-- C4: with narrowSparseInd enabled getSparseIndType returns uint8 when
the target group has at most 255 neurons, uint16 when at most 65535, and
uint32 otherwise; with the flag disabled it always returns uint32; and
Runtime::allocate creates the ind array with exactly this element type
(and numPre * rowStride elements). -/
theorem C4_sparseIndType (narrow : Bool) (numTrg : Nat) :
    (narrow = true →
      ((numTrg <= 255 → getSparseIndType narrow numTrg = ResolvedType.uint8) ∧
       (255 < numTrg → numTrg <= 65535 →
         getSparseIndType narrow numTrg = ResolvedType.uint16) ∧
       (65535 < numTrg → getSparseIndType narrow numTrg = ResolvedType.uint32))) ∧
    (narrow = false → getSparseIndType narrow numTrg = ResolvedType.uint32) ∧
    (∀ numPre rowStride msc remap,
      (allocateSparseConnectivity narrow numPre numTrg rowStride msc
          remap).find? (fun a => a.name == "ind")
        = some ⟨"ind", getSparseIndType narrow numTrg, numPre * rowStride⟩) := by
  refine ⟨fun hn => ⟨fun h8 => ?_, fun h8 h16 => ?_, fun h16 => ?_⟩,
          fun hn => ?_, fun numPre rowStride msc remap => ?_⟩
  · simp [getSparseIndType, hn, h8]
  · simp [getSparseIndType, hn, Nat.not_le.mpr h8, h16]
  · simp [getSparseIndType, hn, Nat.not_le.mpr (by omega : (255 : Nat) < numTrg),
          Nat.not_le.mpr h16]
  · simp [getSparseIndType, hn]
  · simp [allocateSparseConnectivity, List.find?]

/-- Witness for C4: a target population of 200 neurons with narrow indices
gives a uint8 ind array, 300 neurons give uint16, and with the flag off
70000 neurons give uint32; the allocated ind array for 10 presynaptic
neurons and row stride 200 carries the narrowed type. -/
theorem C4_sparseIndType_witness :
    getSparseIndType true 200 = ResolvedType.uint8 ∧
    getSparseIndType true 300 = ResolvedType.uint16 ∧
    getSparseIndType true 70000 = ResolvedType.uint32 ∧
    getSparseIndType false 200 = ResolvedType.uint32 ∧
    (allocateSparseConnectivity true 10 200 200 0 false).find?
        (fun a => a.name == "ind")
      = some ⟨"ind", ResolvedType.uint8, 2000⟩ :=
  ⟨(C4_sparseIndType true 200).1 rfl |>.1 (by decide),
   (C4_sparseIndType true 300).1 rfl |>.2.1 (by decide) (by decide),
   (C4_sparseIndType true 70000).1 rfl |>.2.2 (by decide),
   (C4_sparseIndType false 200).2.1 rfl,
   by
     have h := (C4_sparseIndType true 200).2.2 10 200 0 false
     rw [h]
     rfl⟩

/-- Modelled from the spec: GeNN::CodeGenerator::ceilDivide (a gennUtils
helper not under src/) — the ceiling of numerator / denominator, as used
for the recording-word count ceil(N/32) in spec section 4.7. -/
def ceilDivide (numerator denominator : Nat) : Nat :=
  (numerator + denominator - 1) / denominator

/-- The recording slice of Runtime::allocate (runtime/runtime.cc lines
142-158): when spike or spike-event recording is enabled, fail if no
numRecordingTimesteps was supplied, otherwise create recordSpk — or, only
when spike recording is disabled, recordSpkEvent — with
(ceilDivide(numNeurons,32) * batchSize) * numRecordingTimesteps words. -/
def allocateNeuronRecording (spikeRecordingEnabled spikeEventRecordingEnabled : Bool)
    (numNeurons batchSize : Nat) (numRecordingTimesteps : Option Nat) :
    Except String (List (String × Nat)) :=
  if spikeRecordingEnabled || spikeEventRecordingEnabled then
    match numRecordingTimesteps with
    | none => Except.error
        "Cannot use recording system without specifying number of recording timesteps"
    | some t =>
      let numRecordingWords := (ceilDivide numNeurons 32 * batchSize) * t
      if spikeRecordingEnabled then
        Except.ok [("recordSpk", numRecordingWords)]
      else
        Except.ok [("recordSpkEvent", numRecordingWords)]
  else
    Except.ok []

/-- C5: with recording enabled, Runtime::allocate creates a recording
array of exactly ceil(numNeurons/32) * batchSize * numRecordingTimesteps
32-bit words, and fails with an error when numRecordingTimesteps was not
supplied. -/
theorem C5_recordingAllocation (sr ser : Bool) (n b t : Nat)
    (h : sr = true ∨ ser = true) :
    allocateNeuronRecording sr ser n b (some t)
      = Except.ok [((if sr then "recordSpk" else "recordSpkEvent"),
                    (ceilDivide n 32 * b) * t)] ∧
    allocateNeuronRecording sr ser n b none
      = Except.error
          "Cannot use recording system without specifying number of recording timesteps" := by
  have hor : (sr || ser) = true := by
    rcases h with h | h <;> simp [h]
  cases sr <;> simp_all [allocateNeuronRecording]

/-- Witness for C5 at the spec scenario N=70, batchSize=4, 1000 recording
timesteps: the recording buffer has 3 * 4 * 1000 = 12000 words, and
omitting the recording size fails. -/
theorem C5_recordingAllocation_witness :
    allocateNeuronRecording true false 70 4 (some 1000)
      = Except.ok [("recordSpk", 12000)] ∧
    allocateNeuronRecording true false 70 4 none
      = Except.error
          "Cannot use recording system without specifying number of recording timesteps" := by
  have h := C5_recordingAllocation true false 70 4 1000 (Or.inl rfl)
  refine ⟨?_, h.2⟩
  rw [h.1]
  rfl

/-- C9: when both spike and spike-event recording are enabled only the
recordSpk array is created; the recordSpkEvent array is created exactly
when spike-event recording is enabled and spike recording is not. -/
theorem C9_recordingSpkPriority (n b t : Nat) :
    allocateNeuronRecording true true n b (some t)
      = Except.ok [("recordSpk", (ceilDivide n 32 * b) * t)] ∧
    allocateNeuronRecording false true n b (some t)
      = Except.ok [("recordSpkEvent", (ceilDivide n 32 * b) * t)] := by
  constructor <;> rfl

/-- NeuronSpikeQueueUpdateGroupMerged::genSpikeQueueUpdate
(neuronUpdateGroupMerged.cc lines 990-995): when the archetype requires
delay, the generated code sets the spike queue pointer to
(spkQuePtr + 1) mod numDelaySlots; otherwise it leaves it alone. -/
def genSpikeQueueUpdate (delayRequired : Bool) (numDelaySlots spkQuePtr : Nat) :
    Nat :=
  if delayRequired then (spkQuePtr + 1) % numDelaySlots else spkQuePtr

/-- The runtime state driven by Runtime::stepTime (runtime/runtime.cc lines
439-461): the local timestep counter together with the spike queue pointer
maintained by the generated spike-queue update, which the generated
stepTime entrypoint runs before the neuron-update kernel. -/
structure RuntimeState where
  timestep : Nat
  spkQuePtr : Nat
deriving DecidableEq

/-- Runtime::stepTime: invoke the generated step (which first performs the
spike-queue update) and advance the local timestep counter. -/
def stepTime (delayRequired : Bool) (numDelaySlots : Nat)
    (st : RuntimeState) : RuntimeState :=
  { timestep := st.timestep + 1,
    spkQuePtr := genSpikeQueueUpdate delayRequired numDelaySlots st.spkQuePtr }

/-- C6: for a delayed neuron group the spike queue pointer advances by one
modulo numDelaySlots once per stepTime, so after n stepTime calls from a
zero-initialised pointer it equals n mod numDelaySlots (and the timestep
counter equals n). -/
theorem C6_spikeQueueAdvance (numDelaySlots n : Nat)
    (h : 0 < numDelaySlots) :
    (stepTime true numDelaySlots)^[n] ⟨0, 0⟩
      = ⟨n, n % numDelaySlots⟩ := by
  induction n with
  | zero => simp [Nat.zero_mod]
  | succ m ih =>
    rw [Function.iterate_succ_apply', ih]
    simp only [stepTime, genSpikeQueueUpdate, if_true]
    exact congrArg (RuntimeState.mk (m + 1)) (Nat.mod_add_mod m numDelaySlots 1)

/-- Witness for C6 at the spec scenario: with 4 delay slots, after 10
stepTime calls the queue pointer is 10 mod 4 = 2. -/
theorem C6_spikeQueueAdvance_witness :
    0 < 4 ∧ ((stepTime true 4)^[10] ⟨0, 0⟩).spkQuePtr = 2 :=
  ⟨by decide, by rw [C6_spikeQueueAdvance 4 10 (by decide)]⟩

/-- The PROCEDURAL-connectivity validation block of the SynapseGroup
constructor (synapseGroup.cc lines 379-406), in source order: reject a
toeplitz initialiser, require row-build code, reject column-build code,
reject postsynaptic-learn code, reject synapse-dynamics code.  Each flag
records whether the corresponding token stream is empty. -/
def validateProceduralConnectivity (toeplitzDiagBuildEmpty rowBuildEmpty
    colBuildEmpty postLearnEmpty synapseDynamicsEmpty : Bool) :
    Except String Unit :=
  if !toeplitzDiagBuildEmpty then
    Except.error "Cannot use procedural connectivity with toeplitz initialisation snippet"
  else if rowBuildEmpty then
    Except.error "Cannot use procedural connectivity without specifying a connectivity initialisation snippet with row building code"
  else if !colBuildEmpty then
    Except.error "Cannot use procedural connectivity with connectivity initialisation snippets with column building code"
  else if !postLearnEmpty then
    Except.error "Procedural connectivity cannot be used for synapse groups with postsynaptic spike-triggered learning"
  else if !synapseDynamicsEmpty then
    Except.error "Procedural connectivity cannot be used for synapse groups with continuous synapse dynamics"
  else
    Except.ok ()

/-- Whether a validation step succeeded. -/
def validationOk : Except String Unit -> Bool
  | Except.ok _ => true
  | Except.error _ => false

/-- C7: constructing a PROCEDURAL-connectivity synapse group fails whenever
column-build code, postsynaptic-learn code or synapse-dynamics code is
present, and the procedural checks succeed when none of the three is
present, row-build code exists, and no toeplitz initialiser was given. -/
theorem C7_proceduralConnectivityChecks :
    (∀ tz rb cb pl sd,
      (cb = false ∨ pl = false ∨ sd = false) →
        validationOk (validateProceduralConnectivity tz rb cb pl sd) = false) ∧
    validateProceduralConnectivity true false true true true
      = Except.ok () := by
  constructor
  · decide
  · rfl

/-- Witness for C7: with column-build code present (and everything else
legal) the procedural checks reject the group. -/
theorem C7_proceduralConnectivityChecks_witness :
    validationOk (validateProceduralConnectivity true false false true true)
      = false :=
  C7_proceduralConnectivityChecks.1 true false false true true (Or.inl rfl)

/-- The configuration state stored in GeNN::ModelSpec
(include/genn/genn/modelSpec.h): the class declaration contains the model
name, precisions, dt, timing flag, seed, default locations and fuse flags,
batch size and the group maps — and no member recording whether finalise
has run. -/
structure ModelSpec where
  m_Name : String
  m_DT : Rat
  m_TimingEnabled : Bool
  m_Seed : Nat
  m_BatchSize : Nat
deriving DecidableEq

/-- ModelSpec::setDT (modelSpec.h): an unconditional inline assignment. -/
def ModelSpec.setDT (m : ModelSpec) (dt : Rat) : ModelSpec :=
  { m with m_DT := dt }

/-- ModelSpec::setBatchSize (modelSpec.h): an unconditional inline
assignment. -/
def ModelSpec.setBatchSize (m : ModelSpec) (batchSize : Nat) : ModelSpec :=
  { m with m_BatchSize := batchSize }

/-- Modelled from the spec: ModelSpec::finalise — only its declaration is
under src/ (modelSpec.h); per spec section 4.1 it computes derived
parameters and finalises variable initialisers inside the stored groups.
The class declaration shows no member in which a frozen mark could be
recorded, so finalise leaves every stored configuration member unchanged. -/
def ModelSpec.finalise (m : ModelSpec) : ModelSpec := m

/-- A concrete model with dt = 1 and batch size 1. -/
def msConcrete : ModelSpec :=
  { m_Name := "model", m_DT := 1, m_TimingEnabled := false, m_Seed := 0,
    m_BatchSize := 1 }

/-- Counterexample for C3: calling setDT after finalise on a concrete model
does not fail with a Frozen error — it simply overwrites the stored dt, so
the model IS modified by a post-finalise mutating call. -/
theorem C3_counterexample :
    ((msConcrete.finalise).setDT 2).m_DT = 2 ∧
    msConcrete.finalise.m_DT ≠ 2 ∧
    ((msConcrete.finalise).setBatchSize 4).m_BatchSize = 4 ∧
    msConcrete.finalise.m_BatchSize ≠ 4 :=
  ⟨by decide, by decide, by decide, by decide⟩

/-- C3 (amended): finalise does not freeze the model — ModelSpec stores no
frozen flag and its mutating setters are unconditional assignments, so any
mutating call after finalise succeeds and overwrites the stored value
(there is no Frozen error path). -/
theorem C3_no_freeze (m : ModelSpec) (dt : Rat) (batchSize : Nat) :
    ((m.finalise).setDT dt).m_DT = dt ∧
    ((m.finalise).setBatchSize batchSize).m_BatchSize = batchSize ∧
    m.finalise = m :=
  ⟨rfl, rfl, rfl⟩

/-- Whether an association list (std::unordered_map) holds a key. -/
def hasKey (m : List (String × Rat)) (k : String) : Bool :=
  m.any (fun e => e.1 == k)

/-- std::unordered_map::emplace — insert only when the key is absent. -/
def emplace (m : List (String × Rat)) (kv : String × Rat) :
    List (String × Rat) :=
  if hasKey m kv.1 then m else m ++ [kv]

/-- Emplace every entry of `news`, left to right. -/
def emplaceAll (m news : List (String × Rat)) : List (String × Rat) :=
  news.foldl emplace m

theorem hasKey_emplace_self (m : List (String × Rat)) (kv : String × Rat) :
    hasKey (emplace m kv) kv.1 = true := by
  unfold emplace
  split
  · next h => exact h
  · simp [hasKey, List.any_append]

theorem hasKey_emplace_mono (m : List (String × Rat)) (kv : String × Rat)
    (k : String) (h : hasKey m k = true) :
    hasKey (emplace m kv) k = true := by
  unfold emplace
  split
  · exact h
  · simp only [hasKey, List.any_append, Bool.or_eq_true_iff]
    exact Or.inl h

theorem hasKey_emplaceAll_mono (news m : List (String × Rat)) (k : String)
    (h : hasKey m k = true) : hasKey (emplaceAll m news) k = true := by
  induction news generalizing m with
  | nil => exact h
  | cons a tl ih => exact ih (emplace m a) (hasKey_emplace_mono m a k h)

theorem hasKey_emplaceAll_mem (news m : List (String × Rat))
    (kv : String × Rat) (h : kv ∈ news) :
    hasKey (emplaceAll m news) kv.1 = true := by
  induction news generalizing m with
  | nil => cases h
  | cons a tl ih =>
    cases h with
    | head =>
      exact hasKey_emplaceAll_mono tl (emplace m kv) kv.1
        (hasKey_emplace_self m kv)
    | tail _ h => exact ih (emplace m a) h

theorem emplaceAll_of_hasKeys (news m : List (String × Rat))
    (h : ∀ kv ∈ news, hasKey m kv.1 = true) : emplaceAll m news = m := by
  induction news with
  | nil => rfl
  | cons a tl ih =>
    have ha : emplace m a = m := by
      unfold emplace
      rw [h a (List.mem_cons_self a tl)]
      rfl
    show emplaceAll (emplace m a) tl = m
    rw [ha]
    exact ih (fun kv hkv => h kv (List.mem_cons_of_mem a hkv))

/-- Re-emplacing the same entries is a no-op: after the first pass every
key is present, and emplace never overwrites. -/
theorem emplaceAll_emplaceAll (m news : List (String × Rat)) :
    emplaceAll (emplaceAll m news) news = emplaceAll m news :=
  emplaceAll_of_hasKeys news (emplaceAll m news)
    (fun kv hkv => hasKey_emplaceAll_mem news m kv hkv)

/-- A snippet initialiser (Snippet::Init, declared outside src/) as
mutated by finalise.  Modelled from the spec: finalise evaluates the
snippet's derived-parameter closures once with the frozen parameter map
and dt, emplacing the results exactly as SynapseGroup::finalise does for
its own derived parameters. -/
structure SnippetInit where
  params : List (String × Rat)
  derivedParamDefs : List (String × (List (String × Rat) → Rat → Rat))
  derivedParams : List (String × Rat)

/-- Snippet::Init::finalise — compute each derived parameter from the
parameter map and dt, emplacing into the stored derived-parameter map. -/
def SnippetInit.finalise (v : SnippetInit) (dt : Rat) : SnippetInit :=
  { v with
    derivedParams :=
      emplaceAll v.derivedParams
        (v.derivedParamDefs.map (fun d => (d.1, d.2 v.params dt))) }

theorem SnippetInit.finalise_idem (v : SnippetInit) (dt : Rat) :
    (v.finalise dt).finalise dt = v.finalise dt := by
  cases v with
  | mk params defs dps =>
    simp only [SnippetInit.finalise]
    rw [emplaceAll_emplaceAll]

theorem map_snippetInit_finalise_idem (l : List (String × SnippetInit))
    (dt : Rat) :
    (l.map (fun v => (v.1, v.2.finalise dt))).map
        (fun v => (v.1, v.2.finalise dt))
      = l.map (fun v => (v.1, v.2.finalise dt)) := by
  induction l with
  | nil => rfl
  | cons a tl ih => simp [ih, SnippetInit.finalise_idem]

/-- The neuron-group state touched by SynapseGroup::finalise: the neuron
model's variable names and which of them require a delay queue.  Modelled
from the spec: NeuronGroup (neuronGroup.cc is not under src/) marks a
variable as requiring a queue when its name with the given suffix is
referenced in consumer code (spec section 4.1). -/
structure NeuronGroupState where
  varNames : List String
  varQueueRequired : String → Bool

theorem NeuronGroupState.ext' (a b : NeuronGroupState)
    (h1 : a.varNames = b.varNames)
    (h2 : ∀ v, a.varQueueRequired v = b.varQueueRequired v) : a = b := by
  cases a with
  | mk n1 q1 =>
    cases b with
    | mk n2 q2 =>
      cases h1
      exact congrArg (NeuronGroupState.mk n1) (funext h2)

/-- NeuronGroup::updateVarQueues — mark every model variable whose name,
with the given suffix appended, is referenced in the token stream. -/
def NeuronGroupState.updateVarQueues (ng : NeuronGroupState) (ts : Tokens)
    (suf : String) : NeuronGroupState :=
  { ng with varQueueRequired := fun v =>
      ng.varQueueRequired v
      || (ng.varNames.contains v && isIdentifierReferenced (v ++ suf) ts) }

/-- The guarded form used by SynapseGroup::finalise: presynaptic queue
update run only when the code fragment is nonempty. -/
def updatePreVarQueuesIf (ts : Tokens) (ng : NeuronGroupState) :
    NeuronGroupState :=
  if areTokensEmpty ts then ng else ng.updateVarQueues ts "_pre"

/-- The guarded form used by SynapseGroup::finalise: postsynaptic queue
update run only when the code fragment is nonempty. -/
def updatePostVarQueuesIf (ts : Tokens) (ng : NeuronGroupState) :
    NeuronGroupState :=
  if areTokensEmpty ts then ng else ng.updateVarQueues ts "_post"

/-- Updating with an empty fragment marks nothing, so the guard in
SynapseGroup::finalise is semantically redundant. -/
theorem updateVarQueues_nil (ng : NeuronGroupState) (suf : String) :
    ng.updateVarQueues [] suf = ng := by
  refine NeuronGroupState.ext' _ _ rfl (fun v => ?_)
  simp [NeuronGroupState.updateVarQueues, isIdentifierReferenced]

theorem updatePreVarQueuesIf_eq (ts : Tokens) (ng : NeuronGroupState) :
    updatePreVarQueuesIf ts ng = ng.updateVarQueues ts "_pre" := by
  unfold updatePreVarQueuesIf
  split
  · next h =>
    have hts : ts = [] := List.isEmpty_iff.mp h
    rw [hts, updateVarQueues_nil]
  · rfl

theorem updatePostVarQueuesIf_eq (ts : Tokens) (ng : NeuronGroupState) :
    updatePostVarQueuesIf ts ng = ng.updateVarQueues ts "_post" := by
  unfold updatePostVarQueuesIf
  split
  · next h =>
    have hts : ts = [] := List.isEmpty_iff.mp h
    rw [hts, updateVarQueues_nil]
  · rfl

theorem bool_or_chain_absorb (a b1 b2 b3 b4 : Bool) :
    ((((((((a || b1) || b2) || b3) || b4) || b1) || b2) || b3) || b4)
      = ((((a || b1) || b2) || b3) || b4) := by
  revert a b1 b2 b3 b4; decide

/-- Re-running the four queue-marking passes marks nothing new. -/
theorem updateVarQueues_chain_fix (ng : NeuronGroupState)
    (t1 t2 t3 t4 : Tokens) (suf : String) :
    (((((((ng.updateVarQueues t1 suf).updateVarQueues t2 suf).updateVarQueues
        t3 suf).updateVarQueues t4 suf).updateVarQueues t1 suf).updateVarQueues
        t2 suf).updateVarQueues t3 suf).updateVarQueues t4 suf
      = (((ng.updateVarQueues t1 suf).updateVarQueues t2 suf).updateVarQueues
          t3 suf).updateVarQueues t4 suf := by
  refine NeuronGroupState.ext' _ _ rfl (fun v => ?_)
  simp only [NeuronGroupState.updateVarQueues]
  exact bool_or_chain_absorb _ _ _ _ _

/-- The SynapseGroup state mutated by SynapseGroup::finalise
(synapseGroup.cc lines 521-583): parameter maps, derived-parameter maps
with the model's derived-parameter closures, the four families of variable
initialisers, the two connectivity initialisers, the four weight-update
code fragments whose identifiers drive queue marking, and the source and
target neuron groups. -/
structure SynapseGroupState where
  wuParams : List (String × Rat)
  psParams : List (String × Rat)
  wuDerivedParamDefs : List (String × (List (String × Rat) → Rat → Rat))
  psDerivedParamDefs : List (String × (List (String × Rat) → Rat → Rat))
  wuDerivedParams : List (String × Rat)
  psDerivedParams : List (String × Rat)
  wuVarInitialisers : List (String × SnippetInit)
  psVarInitialisers : List (String × SnippetInit)
  wuPreVarInitialisers : List (String × SnippetInit)
  wuPostVarInitialisers : List (String × SnippetInit)
  sparseConnectivityInitialiser : SnippetInit
  toeplitzConnectivityInitialiser : SnippetInit
  wuSimCodeTokens : Tokens
  wuEventCodeTokens : Tokens
  wuPostLearnCodeTokens : Tokens
  wuSynapseDynamicsCodeTokens : Tokens
  srcNeuronGroup : NeuronGroupState
  trgNeuronGroup : NeuronGroupState

/-- SynapseGroup::finalise (synapseGroup.cc lines 521-583): emplace the
weight-update and postsynaptic derived parameters computed from the frozen
parameter maps and dt, finalise every variable initialiser and both
connectivity initialisers, then mark presynaptic (source group) and
postsynaptic (target group) variables referenced in the sim, event,
post-learn and synapse-dynamics fragments as requiring queues. -/
def SynapseGroupState.finalise (g : SynapseGroupState) (dt : Rat) :
    SynapseGroupState :=
  { g with
    wuDerivedParams :=
      emplaceAll g.wuDerivedParams
        (g.wuDerivedParamDefs.map (fun d => (d.1, d.2 g.wuParams dt))),
    psDerivedParams :=
      emplaceAll g.psDerivedParams
        (g.psDerivedParamDefs.map (fun d => (d.1, d.2 g.psParams dt))),
    wuVarInitialisers :=
      g.wuVarInitialisers.map (fun v => (v.1, v.2.finalise dt)),
    psVarInitialisers :=
      g.psVarInitialisers.map (fun v => (v.1, v.2.finalise dt)),
    wuPreVarInitialisers :=
      g.wuPreVarInitialisers.map (fun v => (v.1, v.2.finalise dt)),
    wuPostVarInitialisers :=
      g.wuPostVarInitialisers.map (fun v => (v.1, v.2.finalise dt)),
    sparseConnectivityInitialiser :=
      g.sparseConnectivityInitialiser.finalise dt,
    toeplitzConnectivityInitialiser :=
      g.toeplitzConnectivityInitialiser.finalise dt,
    srcNeuronGroup :=
      updatePreVarQueuesIf g.wuSynapseDynamicsCodeTokens
        (updatePreVarQueuesIf g.wuPostLearnCodeTokens
          (updatePreVarQueuesIf g.wuEventCodeTokens
            (updatePreVarQueuesIf g.wuSimCodeTokens g.srcNeuronGroup))),
    trgNeuronGroup :=
      updatePostVarQueuesIf g.wuSynapseDynamicsCodeTokens
        (updatePostVarQueuesIf g.wuPostLearnCodeTokens
          (updatePostVarQueuesIf g.wuEventCodeTokens
            (updatePostVarQueuesIf g.wuSimCodeTokens g.trgNeuronGroup))) }

/-- C8: calling finalise a second time with the same dt is a no-op — the
derived-parameter maps, the variable-initialiser derived parameters and
the queue-requirement markings on the source and target neuron groups are
unchanged by the second call. -/
theorem C8_finalise_idempotent (g : SynapseGroupState) (dt : Rat) :
    (g.finalise dt).finalise dt = g.finalise dt := by
  cases g with
  | mk wuP psP wuDefs psDefs wuDP psDP wuVI psVI wuPreVI wuPostVI sc tc
      t1 t2 t3 t4 src trg =>
    simp only [SynapseGroupState.finalise, updatePreVarQueuesIf_eq,
               updatePostVarQueuesIf_eq]
    congr 1 <;>
      first
        | rfl
        | exact emplaceAll_emplaceAll _ _
        | exact map_snippetInit_finalise_idem _ _
        | exact SnippetInit.finalise_idem _ _
        | exact updateVarQueues_chain_fix _ t1 t2 t3 t4 _

end GeNN



